import Mathlib

/-!
Verification development for the `lyric_fetcher` repository.

The definitions below are a shallow embedding of the lyric normalization core
(`lib/lyric_fetcher/utils.py`), of the older list-based variant of the same
algorithm (`lib/lyric_fetcher/__init__.py`), and of the title-resolution and
output-processing logic of `lib/lyric_fetcher/base.py`.

Python values are modelled as follows: a lyric line (`str | list[str]`) is
`PyLine`; a `dict` is an association list in insertion order; a `set[int]` of
forced line-break indices is a `List Int` used only through membership; a
raised exception is an `Except` error value; `log.warning` is a `Bool` flag in
the result.  All definitions are structurally recursive so that they evaluate
inside the kernel.
-/

namespace LyricFetcher

/-- Characters stripped by Python `str.strip()` (ASCII whitespace; the model
restricts Python's unicode whitespace set to the characters that occur here). -/
def pyStripChars (l : List Char) : List Char :=
  ((l.dropWhile Char.isWhitespace).reverse.dropWhile Char.isWhitespace).reverse

/-- Model of Python `str.strip()`: drop leading and trailing whitespace. -/
def pyStrip (s : String) : String := String.mk (pyStripChars s.data)

/-- Lexicographic (code-point) order on character lists, as Python compares strings. -/
def charListLt : List Char → List Char → Bool
  | [], [] => false
  | [], _ :: _ => true
  | _ :: _, [] => false
  | a :: as, b :: bs => if a < b then true else if b < a then false else charListLt as bs

/-- Model of Python string `<=`, used by `sorted` on `(lang, stanzas)` pairs. -/
def pyStrLe (a b : String) : Bool := !(charListLt b.data a.data)

/-- Model of Python `s.count('\n')`: the number of newline characters in `s`. -/
def countNewlines (s : String) : Nat := s.data.count '\n'

/-- Python truthiness of a `str | None` value: `None` and `''` are falsy. -/
def truthy : Option String → Bool
  | none => false
  | some s => s ≠ ""

/-- Model of Python `a or b` on `str | None` values: `b` when `a` is falsy. -/
def pyOr (a b : Option String) : Option String := if truthy a then a else b

/-- One element of a raw lyric line sequence: Python `str | list[str]`.
A `list` element is a pre-grouped stanza passed through verbatim. -/
inductive PyLine
  | str (s : String)
  | lst (l : List String)
deriving DecidableEq

/-- Python `d.get(k, dflt)` on an association list. -/
def dictGet {α : Type} (d : List (String × α)) (k : String) (dflt : α) : α :=
  (List.lookup k d).getD dflt

/-- Python `sorted(d.items())` on a dict: sort the pairs by key (keys are unique
in a dict, so the second components are never compared). -/
def sortByKey {α : Type} (xs : List (String × α)) : List (String × α) :=
  List.insertionSort (fun a b => pyStrLe a.1 b.1 = true) xs

/-- The list comprehension `[line for line in lang_lyrics if line != '<br/>']`
used when `replace_line_breaks` is set. -/
def stripBreaks (lyrics : List PyLine) : List PyLine :=
  lyrics.filter (fun l => decide (l ≠ PyLine.str "<br/>"))

/-- The loop `for lb in list(lb_set): if lb < 0: lb_set.add(lyric_len + lb)`:
the final set is the original one together with `n + lb` for each negative `lb`. -/
def resolveBreaks (lbSet : List Int) (n : Nat) : List Int :=
  lbSet ++ (lbSet.filter (fun lb => decide (lb < 0))).map (fun lb => (n : Int) + lb)

namespace Utils

/-- Loop state of `LyricNormalizer._iter_stanzas`: the stanzas yielded so far
and the in-progress stanza. -/
structure StanzaAcc where
  done : List (List String)
  cur : List String
deriving DecidableEq

/-- Body of the `for i, line in enumerate(lines)` loop of
`LyricNormalizer._iter_stanzas` (utils.py lines 132-143). -/
def stepLine (lbSet : List Int) (acc : StanzaAcc) (i : Nat) : PyLine → StanzaAcc
  | .lst l =>
    StanzaAcc.mk ((if acc.cur = [] then acc.done else acc.done ++ [acc.cur]) ++ [l]) []
  | .str s =>
    if pyStrip s = "" then acc
    else
      let line := pyStrip s
      let acc1 :=
        if (line = "<br/>" ∨ (i : Int) ∈ lbSet) ∧ acc.cur ≠ [] then
          StanzaAcc.mk (acc.done ++ [acc.cur]) []
        else acc
      if line = "<br/>" then acc1 else StanzaAcc.mk acc1.done (acc1.cur ++ [line])

/-- The full enumeration loop of `_iter_stanzas`, starting at index `i`. -/
def runLines (lbSet : List Int) (acc : StanzaAcc) (i : Nat) : List PyLine → StanzaAcc
  | [] => acc
  | line :: rest => runLines lbSet (stepLine lbSet acc i line) (i + 1) rest

/-- The trailing `if stanza: yield stanza` of `_iter_stanzas`. -/
def closeAcc (acc : StanzaAcc) : List (List String) :=
  if acc.cur = [] then acc.done else acc.done ++ [acc.cur]

/-- `LyricNormalizer._iter_stanzas` for one language: optionally strip break
markers, resolve negative forced-break indices against the (possibly stripped)
length, then walk the lines chained with the language's extra lines. -/
def iterStanzas (langLineBreaks : List Int) (replaceLineBreaks : Bool)
    (extraLyrics : List PyLine) (langLyrics : List PyLine) : List (List String) :=
  let lyrics := if replaceLineBreaks then stripBreaks langLyrics else langLyrics
  let lbSet := resolveBreaks langLineBreaks lyrics.length
  closeAcc (runLines lbSet (StanzaAcc.mk [] []) 0 (lyrics ++ extraLyrics))

/-- Python `'\n\n'.join('\n'.join(stanza) for stanza in stanza_lists)`. -/
def joinStanzas (stanzaLists : List (List String)) : String :=
  String.intercalate "\n\n" (stanzaLists.map (String.intercalate "\n"))

/-- The `StanzaMismatch` exception payload: per language the joined stanza
text, and `max_lines`, the maximum newline count among the joined texts. -/
structure StanzaMismatchE where
  stanzas : List (String × String)
  max_lines : Nat
deriving DecidableEq

/-- Constructor of `StanzaMismatch` (utils.py lines 62-68). -/
def mkStanzaMismatch (allStanzas : List (String × List (List String))) : StanzaMismatchE :=
  let joined := allStanzas.map fun p => (p.1, joinStanzas p.2)
  StanzaMismatchE.mk joined ((joined.map fun p => countNewlines p.2).foldl Nat.max 0)

/-- Failure modes of `LyricNormalizer.normalize`: the `ValueError` raised by
unpacking `sorted(stanzas.items())` into exactly two pairs, and the structured
`StanzaMismatch`. -/
inductive NormError
  | unpack
  | mismatch (e : StanzaMismatchE)
deriving DecidableEq

/-- `LyricNormalizer.normalize` (utils.py lines 92-118).  The `Bool` component
records whether `log.warning` was called.  On a stanza-count mismatch the
sorted items are destructured into exactly two pairs before `ignore_len` is
consulted, so any other number of languages fails with the unpacking error. -/
def LyricNormalizer.normalize (langLyricsMap : List (String × List PyLine))
    (lineBreaks : List (String × List Int)) (extraLyrics : List (String × List PyLine))
    (replaceLineBreaks : Bool) (ignoreLen : Bool) :
    Bool × Except NormError (List (String × List (List String))) :=
  let stanzas := langLyricsMap.map fun p =>
    (p.1, iterStanzas (dictGet lineBreaks p.1 []) replaceLineBreaks (dictGet extraLyrics p.1 []) p.2)
  let stanzaLengths := stanzas.map fun p => p.2.length
  if stanzaLengths.dedup.length = 1 then (false, Except.ok stanzas)
  else
    match sortByKey stanzas with
    | [_, _] =>
      if ignoreLen then (true, Except.ok stanzas)
      else (true, Except.error (NormError.mismatch (mkStanzaMismatch stanzas)))
    | _ => (true, Except.error NormError.unpack)

/-- Module-level `normalize_lyrics` of utils.py: build a fresh `LyricNormalizer`
from the arguments and call `normalize`. -/
def normalize_lyrics (lyricsByLang : List (String × List PyLine))
    (extraLinebreaks : List (String × List Int)) (extraLines : List (String × List PyLine))
    (replaceLb : Bool) (ignoreLen : Bool) :
    Bool × Except NormError (List (String × List (List String))) :=
  LyricNormalizer.normalize lyricsByLang extraLinebreaks extraLines replaceLb ignoreLen

end Utils

namespace InitPy

/-- Failure modes of the list-based `normalize_lyrics` of `__init__.py`: the
`AttributeError` from calling `.strip()` on a `list` line, and the `ValueError`
raised on a stanza-count mismatch. -/
inductive PyError
  | attributeError
  | valueError
deriving DecidableEq

/-- Loop state of the list-based variant.  Unlike the normalizer object, the
old loop appends the raw (untrimmed) line values, so stanzas keep `PyLine`s. -/
structure RawStanzaAcc where
  done : List (List PyLine)
  cur : List PyLine
deriving DecidableEq

/-- Body of the `for i, line in enumerate(...)` loop of the list-based
`normalize_lyrics` (`__init__.py` lines 68-77). -/
def stepLine (lbSet : List Int) (acc : RawStanzaAcc) (i : Nat) (line : PyLine) :
    Except PyError RawStanzaAcc :=
  if line = PyLine.str "<br/>" ∨ (i : Int) ∈ lbSet then
    let acc1 :=
      if acc.cur = [] then acc else RawStanzaAcc.mk (acc.done ++ [acc.cur]) []
    Except.ok (if line = PyLine.str "<br/>" then acc1
               else RawStanzaAcc.mk acc1.done (acc1.cur ++ [line]))
  else
    match line with
    | .str s => Except.ok (if pyStrip s ≠ "" then RawStanzaAcc.mk acc.done (acc.cur ++ [line]) else acc)
    | .lst _ => Except.error PyError.attributeError

/-- The full enumeration loop of the list-based variant, starting at index `i`. -/
def runLines (lbSet : List Int) (acc : RawStanzaAcc) (i : Nat) :
    List PyLine → Except PyError RawStanzaAcc
  | [] => Except.ok acc
  | line :: rest =>
    match stepLine lbSet acc i line with
    | Except.error e => Except.error e
    | Except.ok acc1 => runLines lbSet acc1 (i + 1) rest

/-- The trailing `if stanza: stanzas[lang].append(stanza)` of the old loop. -/
def closeAcc (acc : RawStanzaAcc) : List (List PyLine) :=
  if acc.cur = [] then acc.done else acc.done ++ [acc.cur]

/-- Per-language stanza construction of the list-based `normalize_lyrics`. -/
def iterStanzas (langLineBreaks : List Int) (replaceLb : Bool)
    (extraLyrics : List PyLine) (langLyrics : List PyLine) :
    Except PyError (List (List PyLine)) :=
  let lyrics := if replaceLb then stripBreaks langLyrics else langLyrics
  let lbSet := resolveBreaks langLineBreaks lyrics.length
  match runLines lbSet (RawStanzaAcc.mk [] []) 0 (lyrics ++ extraLyrics) with
  | Except.error e => Except.error e
  | Except.ok acc => Except.ok (closeAcc acc)

/-- The `for lang, lang_lyrics in lyrics_by_lang.items()` loop of the
list-based variant, building the per-language stanza dict. -/
def buildStanzas (extraLinebreaks : List (String × List Int))
    (extraLines : List (String × List PyLine)) (replaceLb : Bool) :
    List (String × List PyLine) → Except PyError (List (String × List (List PyLine)))
  | [] => Except.ok []
  | p :: rest =>
    match iterStanzas (dictGet extraLinebreaks p.1 []) replaceLb (dictGet extraLines p.1 []) p.2 with
    | Except.error e => Except.error e
    | Except.ok s =>
      match buildStanzas extraLinebreaks extraLines replaceLb rest with
      | Except.error e => Except.error e
      | Except.ok rest1 => Except.ok ((p.1, s) :: rest1)

/-- The list-based `normalize_lyrics` of `__init__.py` (lines 53-96): build the
stanza dict, then raise `ValueError` if stanza counts differ and `ignore_len`
is not set, otherwise return the stanza dict as built. -/
def normalize_lyrics (lyricsByLang : List (String × List PyLine))
    (extraLinebreaks : List (String × List Int)) (extraLines : List (String × List PyLine))
    (replaceLb : Bool) (ignoreLen : Bool) :
    Except PyError (List (String × List (List PyLine))) :=
  match buildStanzas extraLinebreaks extraLines replaceLb lyricsByLang with
  | Except.error e => Except.error e
  | Except.ok stanzas =>
    let stanzaLengths := stanzas.map fun p => p.2.length
    if stanzaLengths.dedup.length ≠ 1 ∧ ¬ignoreLen then Except.error PyError.valueError
    else Except.ok stanzas

end InitPy

namespace Utils

/-- Variant of `iterStanzas` that also returns the resolved forced-break set:
in Python the resolution loop mutates the set stored in
`LyricNormalizer.line_breaks` in place (when the language has an entry). -/
def iterStanzasSt (langLineBreaks : List Int) (replaceLineBreaks : Bool)
    (extraLyrics : List PyLine) (langLyrics : List PyLine) :
    List Int × List (List String) :=
  let lyrics := if replaceLineBreaks then stripBreaks langLyrics else langLyrics
  let lbSet := resolveBreaks langLineBreaks lyrics.length
  (lbSet, closeAcc (runLines lbSet (StanzaAcc.mk [] []) 0 (lyrics ++ extraLyrics)))

/-- Python `k in d` for the `line_breaks` dict. -/
def dictHasKey {α : Type} (d : List (String × α)) (k : String) : Bool :=
  (List.lookup k d).isSome

/-- In-place replacement of the value stored under an existing key `k`. -/
def dictSet {α : Type} (d : List (String × α)) (k : String) (v : α) : List (String × α) :=
  d.map fun p => if p.1 = k then (k, v) else p

/-- The per-language loop of `normalize`, threading the mutable `line_breaks`
state: a language's set is mutated only if the dict holds an entry for it
(otherwise `line_breaks.get(lang, set())` makes a fresh set that is discarded). -/
def buildStanzasSt (replaceLineBreaks : Bool) (extraLyrics : List (String × List PyLine))
    (lineBreaks : List (String × List Int)) :
    List (String × List PyLine) →
    List (String × List Int) × List (String × List (List String))
  | [] => (lineBreaks, [])
  | p :: rest =>
    let r := iterStanzasSt (dictGet lineBreaks p.1 []) replaceLineBreaks (dictGet extraLyrics p.1 []) p.2
    let lineBreaks1 := if dictHasKey lineBreaks p.1 then dictSet lineBreaks p.1 r.1 else lineBreaks
    let built := buildStanzasSt replaceLineBreaks extraLyrics lineBreaks1 rest
    (built.1, (p.1, r.2) :: built.2)

/-- `LyricNormalizer.normalize` with the object's mutable `line_breaks` state
made explicit: returns the final state alongside the result. -/
def LyricNormalizer.normalizeSt (langLyricsMap : List (String × List PyLine))
    (lineBreaks : List (String × List Int)) (extraLyrics : List (String × List PyLine))
    (replaceLineBreaks : Bool) (ignoreLen : Bool) :
    List (String × List Int) ×
      (Bool × Except NormError (List (String × List (List String)))) :=
  let built := buildStanzasSt replaceLineBreaks extraLyrics lineBreaks langLyricsMap
  let stanzas := built.2
  let stanzaLengths := stanzas.map fun p => p.2.length
  (built.1,
    if stanzaLengths.dedup.length = 1 then (false, Except.ok stanzas)
    else
      match sortByKey stanzas with
      | [_, _] =>
        if ignoreLen then (true, Except.ok stanzas)
        else (true, Except.error (NormError.mismatch (mkStanzaMismatch stanzas)))
      | _ => (true, Except.error NormError.unpack))

end Utils

namespace Base

/-- Result of `HybridLyricFetcher.get_lyrics`: the two line sequences and the
resolved title. -/
structure LyricsResult where
  korean : List PyLine
  english : List PyLine
  title : Option String
deriving DecidableEq

/-- `HybridLyricFetcher.get_lyrics` (base.py lines 205-216), with the two
sources' fetch results passed in: the returned title is
`title or kor_title or eng_title`. -/
def HybridLyricFetcher.getLyrics (korLyrics : List PyLine) (korTitle : Option String)
    (engLyrics : List PyLine) (engTitle : Option String) (title : Option String) :
    LyricsResult :=
  LyricsResult.mk korLyrics engLyrics (pyOr (pyOr title korTitle) engTitle)

/-- Kind of an existing filesystem path. -/
inductive EntryKind
  | file
  | dir
deriving DecidableEq

/-- Model of `os.path.exists`; note that `os.path.exists('')` is `False` in
Python, so the empty path never exists. -/
def pyExists (fs : List (String × EntryKind)) (p : String) : Bool :=
  decide (p ≠ "") && (List.lookup p fs).isSome

/-- Model of `os.path.isdir`. -/
def pyIsDir (fs : List (String × EntryKind)) (p : String) : Bool :=
  List.lookup p fs == some EntryKind.dir

/-- Observable effects of `process_lyrics`: the `get_lyrics` fetch and the
output file write. -/
inductive Effect
  | getLyricsCall (song : Option String)
  | writeFile (path : String)
deriving DecidableEq

/-- Failure modes of `process_lyrics`. -/
inductive ProcError
  | invalidOutputDir
  | normalizeError (e : Utils.NormError)
  | keyError
  | attributeError
deriving DecidableEq

/-- Python `d.pop(k)`: the value and the dict without the key, or `None` if
absent (a `KeyError` at the call site modelled here). -/
def popKey {α : Type} (d : List (String × α)) (k : String) :
    Option (α × List (String × α)) :=
  match List.lookup k d with
  | none => none
  | some v => some (v, d.filter (fun p => decide (p.1 ≠ k)))

/-- The padding loop of `process_lyrics`: append empty stanzas so that every
language reaches the maximum stanza count. -/
def padStanzas (stanzas : List (String × List (List String))) :
    List (String × List (List String)) :=
  let maxStanzas := (stanzas.map fun p => p.2.length).foldl Nat.max 0
  stanzas.map fun p => (p.1, p.2 ++ List.replicate (maxStanzas - p.2.length) [])

/-- `'lyrics_{}.html'.format(final_title.replace(' ', '_').replace('?', ''))`. -/
def outputFilename (finalTitle : String) : String :=
  "lyrics_" ++ ((finalTitle.replace " " "_").replace "?" "") ++ ".html"

/-- `LyricFetcher.process_lyrics` (base.py lines 119-173).  The fetch result
that `get_lyrics` would produce is passed in as `fetched`/`fetchedTitle`; the
returned effect list records whether `get_lyrics` ran and which file was
written.  The output-directory check happens before anything else. -/
def processLyrics (fs : List (String × EntryKind))
    (fetched : List (String × List PyLine)) (fetchedTitle : Option String)
    (song : Option String) (title : Option String) (ignoreLen : Bool)
    (outputDir : Option String) (extraLinebreaks : List (String × List Int))
    (extraLines : List (String × List PyLine)) (replaceLb : Bool)
    (defaultOutputDir : String) : List Effect × Except ProcError Unit :=
  if truthy outputDir && pyExists fs (outputDir.getD "") && !pyIsDir fs (outputDir.getD "") then
    ([], Except.error ProcError.invalidOutputDir)
  else
    let fx := [Effect.getLyricsCall song]
    match (Utils.normalize_lyrics fetched extraLinebreaks extraLines replaceLb ignoreLen).2 with
    | Except.error e => (fx, Except.error (ProcError.normalizeError e))
    | Except.ok stanzas =>
      match popKey stanzas "English" with
      | none => (fx, Except.error ProcError.keyError)
      | some (eng, rest) =>
        let _padded := padStanzas (rest ++ [("Translation", eng)])
        match pyOr (pyOr title fetchedTitle) song with
        | none => (fx, Except.error ProcError.attributeError)
        | some finalTitle =>
          let dir := if truthy outputDir then outputDir.getD "" else defaultOutputDir
          (fx ++ [Effect.writeFile (dir ++ "/" ++ outputFilename finalTitle)], Except.ok ())

end Base

namespace Utils

/-- Per-language stanza construction as `normalize` performs it: forced breaks
and extra lines are looked up in the respective dicts. -/
def langStanzas (extraLinebreaks : List (String × List Int))
    (extraLines : List (String × List PyLine)) (replaceLb : Bool)
    (lang : String) (lyrics : List PyLine) : List (List String) :=
  iterStanzas (dictGet extraLinebreaks lang []) replaceLb (dictGet extraLines lang []) lyrics

/-- The per-language stanza dict that `normalize` builds before checking counts. -/
def stanzasOf (extraLinebreaks : List (String × List Int))
    (extraLines : List (String × List PyLine)) (replaceLb : Bool)
    (m : List (String × List PyLine)) : List (String × List (List String)) :=
  m.map fun p => (p.1, langStanzas extraLinebreaks extraLines replaceLb p.1 p.2)

end Utils

/-- A line that is a non-empty pre-grouped stanza, or any string: exactly the
lines for which `_iter_stanzas` never emits an empty stanza. -/
def GoodLine : PyLine → Prop
  | .str _ => True
  | .lst l => l ≠ []

instance : DecidablePred GoodLine := fun l =>
  match l with
  | .str _ => inferInstanceAs (Decidable True)
  | .lst l => inferInstanceAs (Decidable (l ≠ []))

/-- A string line that is already trimmed and non-empty: on such lines the two
normalization variants behave identically. -/
def CleanLine : PyLine → Prop
  | .str s => pyStrip s = s ∧ s ≠ ""
  | .lst _ => False

instance : DecidablePred CleanLine := fun l =>
  match l with
  | .str s => inferInstanceAs (Decidable (pyStrip s = s ∧ s ≠ ""))
  | .lst _ => inferInstanceAs (Decidable False)

/-- Injection of a trimmed stanza back into raw Python line values. -/
def strStanza (st : List String) : List PyLine := st.map PyLine.str

/-- Correspondence between the two loop states: the old loop holds the same
stanzas with every line injected back into a raw value. -/
def accToRaw (acc : Utils.StanzaAcc) : InitPy.RawStanzaAcc :=
  InitPy.RawStanzaAcc.mk (acc.done.map strStanza) (strStanza acc.cur)

theorem lookup_mem {α : Type} {l : List (String × α)} {k : String} {v : α}
    (h : List.lookup k l = some v) : (k, v) ∈ l := by
  induction l with
  | nil => simp [List.lookup] at h
  | cons p t ih =>
    rw [List.lookup_cons] at h
    split at h
    · next heq =>
      cases h
      obtain ⟨a, b⟩ := p
      simp only [beq_iff_eq] at heq
      subst heq
      exact List.mem_cons_self _ _
    · exact List.mem_cons_of_mem _ (ih h)

theorem mem_dictGet {β : Type} {d : List (String × List β)} {k : String} {x : β}
    (hx : x ∈ dictGet d k []) : ∃ p ∈ d, x ∈ p.2 := by
  unfold dictGet at hx
  cases h : List.lookup k d with
  | none => rw [h] at hx; simp at hx
  | some v =>
    rw [h] at hx
    exact ⟨(k, v), lookup_mem h, hx⟩

theorem sortByKey_length {α : Type} (xs : List (String × α)) :
    (sortByKey xs).length = xs.length :=
  List.length_insertionSort _ xs

theorem dedup_cons_all_eq {a : Nat} : ∀ (l : List Nat), (∀ x ∈ l, x = a) → (a :: l).dedup = [a]
  | [], _ => by simp
  | b :: t, h => by
    have hb : b = a := h b (List.mem_cons_self _ _)
    subst hb
    have ht : ∀ x ∈ t, x = b := fun x hx => h x (List.mem_cons_of_mem _ hx)
    rw [List.dedup_cons_of_mem (List.mem_cons_self b t), dedup_cons_all_eq t ht]

theorem dedup_length_one_of_all_eq {l : List Nat} (h0 : l ≠ [])
    (h : ∀ x ∈ l, ∀ y ∈ l, x = y) : l.dedup.length = 1 := by
  obtain ⟨a, t, rfl⟩ := List.exists_cons_of_ne_nil h0
  rw [dedup_cons_all_eq t fun x hx =>
    h x (List.mem_cons_of_mem _ hx) a (List.mem_cons_self _ _)]
  rfl

theorem all_eq_of_dedup_length_one {l : List Nat} (h : l.dedup.length = 1) :
    ∀ x ∈ l, ∀ y ∈ l, x = y := by
  obtain ⟨a, ha⟩ := List.length_eq_one.mp h
  intro x hx y hy
  have hx1 : x ∈ l.dedup := List.mem_dedup.mpr hx
  have hy1 : y ∈ l.dedup := List.mem_dedup.mpr hy
  rw [ha] at hx1 hy1
  simp only [List.mem_singleton] at hx1 hy1
  rw [hx1, hy1]

theorem stepLine_congr {lb1 lb2 : List Int}
    (h : ∀ m : Nat, ((m : Int) ∈ lb1 ↔ (m : Int) ∈ lb2))
    (acc : Utils.StanzaAcc) (i : Nat) (line : PyLine) :
    Utils.stepLine lb1 acc i line = Utils.stepLine lb2 acc i line := by
  cases line with
  | lst l => rfl
  | str s =>
    have e : ((i : Int) ∈ lb1) = ((i : Int) ∈ lb2) := propext (h i)
    simp only [Utils.stepLine, e]

theorem runLines_congr {lb1 lb2 : List Int}
    (h : ∀ m : Nat, ((m : Int) ∈ lb1 ↔ (m : Int) ∈ lb2)) :
    ∀ (lines : List PyLine) (acc : Utils.StanzaAcc) (i : Nat),
    Utils.runLines lb1 acc i lines = Utils.runLines lb2 acc i lines
  | [], _, _ => rfl
  | line :: rest, acc, i => by
    rw [Utils.runLines, Utils.runLines, stepLine_congr h,
      runLines_congr h rest (Utils.stepLine lb2 acc i line) (i + 1)]

/-- C2 (counterexample): with forced-break set `{2}` on
`["A", "B", "   ", "C"]`, position 2 is in the forced-break set and the
in-progress stanza `["A", "B"]` is non-empty, yet no break occurs — the
whitespace-only line is dropped before the break check, so the output is the
single stanza `["A", "B", "C"]` and `["A", "B"]` is never closed. -/
theorem c2_whitespace_no_break :
    Utils.iterStanzas [2] false [] [PyLine.str "A", PyLine.str "B", PyLine.str "   ", PyLine.str "C"]
      = [["A", "B", "C"]] ∧
    ["A", "B"] ∉
      Utils.iterStanzas [2] false [] [PyLine.str "A", PyLine.str "B", PyLine.str "   ", PyLine.str "C"] :=
  ⟨rfl, by decide⟩

/-- C2 (amended): in the per-language stanza walk, whenever the current
position index is in the forced-break set AND the line at that position trims
to a non-empty string, a stanza break occurs: the in-progress non-empty stanza
is closed, and if the trimmed line is not the break-marker sentinel it becomes
the first line of the new stanza.  In particular, forced-break index `{2}` on
`["A", "B", "C", "D"]` with no markers yields `[["A", "B"], ["C", "D"]]`. -/
theorem c2_forced_break_step :
    (∀ (lbSet : List Int) (acc : Utils.StanzaAcc) (i : Nat) (s : String),
        (i : Int) ∈ lbSet → pyStrip s ≠ "" →
        Utils.stepLine lbSet acc i (PyLine.str s)
          = Utils.StanzaAcc.mk (acc.done ++ (if acc.cur = [] then [] else [acc.cur]))
              (if pyStrip s = "<br/>" then [] else [pyStrip s])) ∧
    Utils.iterStanzas [2] false [] [PyLine.str "A", PyLine.str "B", PyLine.str "C", PyLine.str "D"]
      = [["A", "B"], ["C", "D"]] := by
  constructor
  · intro lbSet acc i s hmem hs
    obtain ⟨dn, cr⟩ := acc
    simp only [Utils.stepLine]
    rw [if_neg hs]
    by_cases hbr : pyStrip s = "<br/>" <;> by_cases hc : cr = [] <;>
      simp [hbr, hc, hmem]
  · rfl

/-- C2 (witness): the amended step property applied at forced-break index 2
with in-progress stanza `["A", "B"]` and line `"C"`. -/
theorem c2_forced_break_step_witness :
    Utils.stepLine [2] (Utils.StanzaAcc.mk [] ["A", "B"]) 2 (PyLine.str "C")
      = Utils.StanzaAcc.mk [["A", "B"]] ["C"] :=
  c2_forced_break_step.1 [2] (Utils.StanzaAcc.mk [] ["A", "B"]) 2 "C" (by decide) (by decide)

/-- C4: a negative forced-break index `-k` (with `1 ≤ k ≤ n`, `n` the
language's possibly break-stripped line count) produces the same stanzas as
the positive index `n - k`, because the resolution loop runs against the line
count before extra trailing lines are appended. -/
theorem c4_negative_break_index (langLyrics extraLyrics : List PyLine) (replaceLb : Bool) (k : Nat)
    (h1 : 1 ≤ k)
    (h2 : k ≤ (if replaceLb then stripBreaks langLyrics else langLyrics).length) :
    Utils.iterStanzas [-(k : Int)] replaceLb extraLyrics langLyrics =
      Utils.iterStanzas
        [(((if replaceLb then stripBreaks langLyrics else langLyrics).length - k : Nat) : Int)]
        replaceLb extraLyrics langLyrics := by
  set n := (if replaceLb then stripBreaks langLyrics else langLyrics).length with hn
  have hL : resolveBreaks [-(k : Int)] n = [-(k : Int), (n : Int) + -(k : Int)] := by
    have : (-(k : Int) < 0) := by omega
    simp [resolveBreaks, List.filter_cons, this]
  have hR : resolveBreaks [((n - k : Nat) : Int)] n = [((n - k : Nat) : Int)] := by
    have : ¬(((n - k : Nat) : Int) < 0) := Int.not_lt.mpr (Int.natCast_nonneg _)
    simp [resolveBreaks, List.filter_cons, this]
  have hcast : ((n - k : Nat) : Int) = (n : Int) - (k : Int) := by
    exact_mod_cast Int.ofNat_sub h2
  have hmem : ∀ m : Nat,
      ((m : Int) ∈ resolveBreaks [-(k : Int)] n ↔
        (m : Int) ∈ resolveBreaks [((n - k : Nat) : Int)] n) := by
    intro m
    rw [hL, hR, hcast]
    simp only [List.mem_cons, List.not_mem_nil, or_false]
    omega
  simp only [Utils.iterStanzas, ← hn]
  rw [runLines_congr hmem]

/-- C4 (witness): index `-1` on a 5-line sequence is equivalent to index `4`. -/
theorem c4_negative_break_index_witness :
    Utils.iterStanzas [-(1 : Int)] false []
        [PyLine.str "a", PyLine.str "b", PyLine.str "c", PyLine.str "d", PyLine.str "e"]
      = Utils.iterStanzas [(4 : Int)] false []
        [PyLine.str "a", PyLine.str "b", PyLine.str "c", PyLine.str "d", PyLine.str "e"] :=
  c4_negative_break_index
    [PyLine.str "a", PyLine.str "b", PyLine.str "c", PyLine.str "d", PyLine.str "e"]
    [] false 1 (by decide) (by decide)

/-- C9: the hybrid fetcher resolves the title as the caller-supplied title
when truthy, else the Korean source's discovered title when truthy, else the
English source's discovered title when truthy, and otherwise the result is
falsy (no title). -/
theorem c9_title_resolution (korLyrics : List PyLine) (korTitle : Option String)
    (engLyrics : List PyLine) (engTitle : Option String) (title : Option String) :
    (truthy title = true →
      (Base.HybridLyricFetcher.getLyrics korLyrics korTitle engLyrics engTitle title).title = title) ∧
    (truthy title = false → truthy korTitle = true →
      (Base.HybridLyricFetcher.getLyrics korLyrics korTitle engLyrics engTitle title).title = korTitle) ∧
    (truthy title = false → truthy korTitle = false → truthy engTitle = true →
      (Base.HybridLyricFetcher.getLyrics korLyrics korTitle engLyrics engTitle title).title = engTitle) ∧
    (truthy title = false → truthy korTitle = false → truthy engTitle = false →
      truthy (Base.HybridLyricFetcher.getLyrics korLyrics korTitle engLyrics engTitle title).title
        = false) := by
  refine ⟨fun h1 => ?_, fun h1 h2 => ?_, fun h1 h2 h3 => ?_, fun h1 h2 h3 => ?_⟩
  · simp [Base.HybridLyricFetcher.getLyrics, pyOr, h1]
  · simp [Base.HybridLyricFetcher.getLyrics, pyOr, h1, h2]
  · simp [Base.HybridLyricFetcher.getLyrics, pyOr, h1, h2, h3]
  · simp [Base.HybridLyricFetcher.getLyrics, pyOr, h1, h2, h3]

/-- C9 (witness): the four resolution cases at concrete titles. -/
theorem c9_title_resolution_witness :
    (Base.HybridLyricFetcher.getLyrics [] (some "K") [] (some "E") (some "T")).title = some "T" ∧
    (Base.HybridLyricFetcher.getLyrics [] (some "K") [] (some "E") none).title = some "K" ∧
    (Base.HybridLyricFetcher.getLyrics [] (some "") [] (some "E") none).title = some "E" ∧
    truthy (Base.HybridLyricFetcher.getLyrics [] (some "") [] none none).title = false :=
  ⟨(c9_title_resolution [] (some "K") [] (some "E") (some "T")).1 (by decide),
   (c9_title_resolution [] (some "K") [] (some "E") none).2.1 (by decide) (by decide),
   (c9_title_resolution [] (some "") [] (some "E") none).2.2.1 (by decide) (by decide) (by decide),
   (c9_title_resolution [] (some "") [] none none).2.2.2 (by decide) (by decide) (by decide)⟩

/-- C10: when the output directory exists but is not a directory,
`process_lyrics` fails with the invalid-configuration `ValueError` before
anything else happens: no `get_lyrics` call is made and no file is written
(the effect list is empty). -/
theorem c10_invalid_output_dir (fs : List (String × Base.EntryKind))
    (fetched : List (String × List PyLine)) (fetchedTitle : Option String)
    (song title : Option String) (ignoreLen : Bool) (d : String)
    (elb : List (String × List Int)) (el : List (String × List PyLine))
    (replaceLb : Bool) (defaultDir : String)
    (hex : Base.pyExists fs d = true) (hdir : Base.pyIsDir fs d = false) :
    Base.processLyrics fs fetched fetchedTitle song title ignoreLen (some d) elb el replaceLb defaultDir
      = ([], Except.error Base.ProcError.invalidOutputDir) := by
  have hd : d ≠ "" := by
    intro hcon
    rw [Base.pyExists, hcon] at hex
    simp at hex
  have ht : truthy (some d) = true := by simp [truthy, hd]
  simp only [Base.processLyrics, Option.getD, ht, hex, hdir]
  rfl

/-- C10 (witness): a filesystem where `out.txt` is an existing regular file. -/
theorem c10_invalid_output_dir_witness :
    Base.processLyrics [("out.txt", Base.EntryKind.file)]
        [("Korean", [PyLine.str "a"]), ("English", [PyLine.str "a"])] (some "T")
        (some "song") none false (some "out.txt") [] [] false "cache"
      = ([], Except.error Base.ProcError.invalidOutputDir) :=
  c10_invalid_output_dir [("out.txt", Base.EntryKind.file)]
    [("Korean", [PyLine.str "a"]), ("English", [PyLine.str "a"])] (some "T")
    (some "song") none false "out.txt" [] [] false "cache" (by decide) (by decide)

/-- C3 (counterexample): an empty list-valued input line is yielded verbatim
as a stanza, so the output `[("Korean", [[]])]` contains an empty stanza. -/
theorem c3_empty_stanza :
    Utils.normalize_lyrics [("Korean", [PyLine.lst []])] [] [] false false
      = (false, Except.ok [("Korean", [[]])]) ∧
    ¬(∀ p ∈ [("Korean", [([] : List String)])], ∀ st ∈ p.2, st ≠ []) :=
  ⟨rfl, by decide⟩

/-- C5 (counterexample): three languages with unequal stanza counts and
`ignore_len=true` do not return the stanza set as built — the destructuring of
the sorted items into exactly two pairs fails first, so the call raises the
generic unpacking `ValueError`. -/
theorem c5_three_languages_error :
    Utils.LyricNormalizer.normalize
        [("A", [PyLine.str "x"]), ("B", [PyLine.str "x", PyLine.str "<br/>", PyLine.str "y"]),
          ("C", [PyLine.str "x"])] [] [] false true
      = (true, Except.error Utils.NormError.unpack) ∧
    Utils.langStanzas [] [] false "A" [PyLine.str "x"] = [["x"]] ∧
    Utils.langStanzas [] [] false "B" [PyLine.str "x", PyLine.str "<br/>", PyLine.str "y"]
      = [["x"], ["y"]] :=
  ⟨rfl, rfl, rfl⟩

/-- C6 (counterexample): on the single-language input `["A "]` the two
implementations disagree — the list-based variant keeps the raw line `"A "`
while the normalizer trims it to `"A"` — even though both complete without
error. -/
theorem c6_trim_divergence :
    InitPy.normalize_lyrics [("Korean", [PyLine.str "A "])] [] [] false false
      = Except.ok [("Korean", [[PyLine.str "A "]])] ∧
    Utils.normalize_lyrics [("Korean", [PyLine.str "A "])] [] [] false false
      = (false, Except.ok [("Korean", [["A"]])]) ∧
    [("Korean", [[PyLine.str "A "]])]
      ≠ [("Korean", ([["A"]] : List (List String)))].map (fun p => (p.1, p.2.map strStanza)) :=
  ⟨rfl, rfl, by decide⟩

/-- C8 (counterexample): for the zero-language input every stanza count
vacuously agrees, yet the call does not return normally — the mismatch branch
is taken (`len(set()) == 0 ≠ 1`) and unpacking the empty sorted item list
fails, for either value of `ignore_len`. -/
theorem c8_zero_languages :
    Utils.LyricNormalizer.normalize [] [] [] false true
      = (true, Except.error Utils.NormError.unpack) ∧
    Utils.LyricNormalizer.normalize [] [] [] false false
      = (true, Except.error Utils.NormError.unpack) :=
  ⟨rfl, rfl⟩

/-- C1 (counterexample): Korean `["a","b"]` (one 2-line stanza) against
English `["a","<br/>","b","<br/>","c"]` (three 1-line stanzas).  The call
fails with a report whose `max_lines` is 4 — the newline count of the joined
English text — while the largest single stanza across both languages has only
2 lines, so `max_lines` does not equal the largest single stanza's line count. -/
theorem c1_max_lines_not_stanza_max :
    Utils.LyricNormalizer.normalize
        [("English", [PyLine.str "a", PyLine.str "<br/>", PyLine.str "b", PyLine.str "<br/>",
          PyLine.str "c"]), ("Korean", [PyLine.str "a", PyLine.str "b"])] [] [] false false
      = (true, Except.error (Utils.NormError.mismatch
          (Utils.StanzaMismatchE.mk [("English", "a\n\nb\n\nc"), ("Korean", "a\nb")] 4))) ∧
    Utils.langStanzas [] [] false "English"
        [PyLine.str "a", PyLine.str "<br/>", PyLine.str "b", PyLine.str "<br/>", PyLine.str "c"]
      = [["a"], ["b"], ["c"]] ∧
    Utils.langStanzas [] [] false "Korean" [PyLine.str "a", PyLine.str "b"] = [["a", "b"]] ∧
    (∀ st ∈ [["a"], ["b"], ["c"]] ++ [["a", "b"]], List.length st ≤ 2) ∧
    (4 : Nat) ≠ 2 :=
  ⟨rfl, rfl, rfl, by decide, by decide⟩

/-- C1 (amended): for every two-language input whose per-language stanza
counts differ, `normalize` with `ignore_len=false` fails with a
`StanzaMismatch` that carries the full joined stanza text per language, and
whose `max_lines` equals the maximum over the two languages of the newline
count of that language's joined stanza text (not the largest single stanza's
line count). -/
theorem c1_mismatch_report (langA langB : String) (lyricsA lyricsB : List PyLine)
    (elb : List (String × List Int)) (el : List (String × List PyLine)) (replaceLb : Bool)
    (sA sB : List (List String))
    (hA : sA = Utils.langStanzas elb el replaceLb langA lyricsA)
    (hB : sB = Utils.langStanzas elb el replaceLb langB lyricsB)
    (hne : sA.length ≠ sB.length) :
    Utils.LyricNormalizer.normalize [(langA, lyricsA), (langB, lyricsB)] elb el replaceLb false
      = (true, Except.error (Utils.NormError.mismatch
          (Utils.mkStanzaMismatch [(langA, sA), (langB, sB)]))) ∧
    (Utils.mkStanzaMismatch [(langA, sA), (langB, sB)]).stanzas
      = [(langA, Utils.joinStanzas sA), (langB, Utils.joinStanzas sB)] ∧
    (Utils.mkStanzaMismatch [(langA, sA), (langB, sB)]).max_lines
      = Nat.max (countNewlines (Utils.joinStanzas sA)) (countNewlines (Utils.joinStanzas sB)) := by
  subst hA
  subst hB
  refine ⟨?_, rfl, ?_⟩
  · have key : Utils.LyricNormalizer.normalize [(langA, lyricsA), (langB, lyricsB)] elb el replaceLb false
        = (if ([(Utils.langStanzas elb el replaceLb langA lyricsA).length,
                (Utils.langStanzas elb el replaceLb langB lyricsB).length] : List Nat).dedup.length = 1
           then (false, Except.ok [(langA, Utils.langStanzas elb el replaceLb langA lyricsA),
                (langB, Utils.langStanzas elb el replaceLb langB lyricsB)])
           else
             match sortByKey [(langA, Utils.langStanzas elb el replaceLb langA lyricsA),
                 (langB, Utils.langStanzas elb el replaceLb langB lyricsB)] with
             | [_, _] => (true, Except.error (Utils.NormError.mismatch
                 (Utils.mkStanzaMismatch [(langA, Utils.langStanzas elb el replaceLb langA lyricsA),
                   (langB, Utils.langStanzas elb el replaceLb langB lyricsB)])))
             | _ => (true, Except.error Utils.NormError.unpack)) := rfl
    have hd : ([(Utils.langStanzas elb el replaceLb langA lyricsA).length,
        (Utils.langStanzas elb el replaceLb langB lyricsB).length] : List Nat).dedup.length = 2 := by
      rw [List.dedup_cons_of_not_mem (by simp [hne]),
        List.dedup_cons_of_not_mem (List.not_mem_nil _), List.dedup_nil]
      rfl
    rw [key, hd, if_neg (by omega)]
    obtain ⟨x, y, hxy⟩ := List.length_eq_two.mp (show
        (sortByKey [(langA, Utils.langStanzas elb el replaceLb langA lyricsA),
          (langB, Utils.langStanzas elb el replaceLb langB lyricsB)]).length = 2 from by
      rw [sortByKey_length]
      rfl)
    rw [hxy]
  · simp only [Utils.mkStanzaMismatch, List.map_cons, List.map_nil, List.foldl_cons,
      List.foldl_nil]
    have hz : Nat.max 0 (countNewlines (Utils.joinStanzas
        (Utils.langStanzas elb el replaceLb langA lyricsA)))
        = countNewlines (Utils.joinStanzas (Utils.langStanzas elb el replaceLb langA lyricsA)) :=
      Nat.zero_max _
    rw [hz]

/-- C1 (witness): Korean with one 2-line stanza against English with three
1-line stanzas — `max_lines` is 4, the newline count of the joined English
text, while the largest single stanza has 2 lines. -/
theorem c1_mismatch_report_witness :
    Utils.LyricNormalizer.normalize
        [("English", [PyLine.str "a", PyLine.str "<br/>", PyLine.str "b", PyLine.str "<br/>",
          PyLine.str "c"]), ("Korean", [PyLine.str "a", PyLine.str "b"])] [] [] false false
      = (true, Except.error (Utils.NormError.mismatch
          (Utils.StanzaMismatchE.mk [("English", "a\n\nb\n\nc"), ("Korean", "a\nb")] 4))) :=
  (c1_mismatch_report "English" "Korean"
    [PyLine.str "a", PyLine.str "<br/>", PyLine.str "b", PyLine.str "<br/>", PyLine.str "c"]
    [PyLine.str "a", PyLine.str "b"] [] [] false [["a"], ["b"], ["c"]] [["a", "b"]]
    rfl rfl (by decide)).1

/-- C5 (counterexample see `c5_three_languages_error`; amended): for every
TWO-language input whose stanza counts differ, `normalize` with
`ignore_len=true` logs a warning (the `Bool` component is `true`) and returns
the unequal stanza set exactly as built, with no stanzas added or removed. -/
theorem c5_two_language_tolerance (langA langB : String) (lyricsA lyricsB : List PyLine)
    (elb : List (String × List Int)) (el : List (String × List PyLine)) (replaceLb : Bool)
    (sA sB : List (List String))
    (hA : sA = Utils.langStanzas elb el replaceLb langA lyricsA)
    (hB : sB = Utils.langStanzas elb el replaceLb langB lyricsB)
    (hne : sA.length ≠ sB.length) :
    Utils.LyricNormalizer.normalize [(langA, lyricsA), (langB, lyricsB)] elb el replaceLb true
      = (true, Except.ok [(langA, sA), (langB, sB)]) := by
  subst hA
  subst hB
  have key : Utils.LyricNormalizer.normalize [(langA, lyricsA), (langB, lyricsB)] elb el replaceLb true
      = (if ([(Utils.langStanzas elb el replaceLb langA lyricsA).length,
              (Utils.langStanzas elb el replaceLb langB lyricsB).length] : List Nat).dedup.length = 1
         then (false, Except.ok [(langA, Utils.langStanzas elb el replaceLb langA lyricsA),
              (langB, Utils.langStanzas elb el replaceLb langB lyricsB)])
         else
           match sortByKey [(langA, Utils.langStanzas elb el replaceLb langA lyricsA),
               (langB, Utils.langStanzas elb el replaceLb langB lyricsB)] with
           | [_, _] => (true, Except.ok [(langA, Utils.langStanzas elb el replaceLb langA lyricsA),
               (langB, Utils.langStanzas elb el replaceLb langB lyricsB)])
           | _ => (true, Except.error Utils.NormError.unpack)) := rfl
  have hd : ([(Utils.langStanzas elb el replaceLb langA lyricsA).length,
      (Utils.langStanzas elb el replaceLb langB lyricsB).length] : List Nat).dedup.length = 2 := by
    rw [List.dedup_cons_of_not_mem (by simp [hne]),
      List.dedup_cons_of_not_mem (List.not_mem_nil _), List.dedup_nil]
    rfl
  rw [key, hd, if_neg (by omega)]
  obtain ⟨x, y, hxy⟩ := List.length_eq_two.mp (show
      (sortByKey [(langA, Utils.langStanzas elb el replaceLb langA lyricsA),
        (langB, Utils.langStanzas elb el replaceLb langB lyricsB)]).length = 2 from by
    rw [sortByKey_length]
    rfl)
  rw [hxy]

/-- C5 (witness): one Korean stanza against three English stanzas with
`ignore_len=true` returns the unequal stanza set as built, with the warning
flag set. -/
theorem c5_two_language_tolerance_witness :
    Utils.LyricNormalizer.normalize
        [("English", [PyLine.str "a", PyLine.str "<br/>", PyLine.str "b", PyLine.str "<br/>",
          PyLine.str "c"]), ("Korean", [PyLine.str "a", PyLine.str "b"])] [] [] false true
      = (true, Except.ok [("English", [["a"], ["b"], ["c"]]), ("Korean", [["a", "b"]])]) :=
  c5_two_language_tolerance "English" "Korean"
    [PyLine.str "a", PyLine.str "<br/>", PyLine.str "b", PyLine.str "<br/>", PyLine.str "c"]
    [PyLine.str "a", PyLine.str "b"] [] [] false [["a"], ["b"], ["c"]] [["a", "b"]]
    rfl rfl (by decide)

/-- C8 (amended): for every dict input with a number of languages other than
two whose stanza counts are unequal, `normalize` fails with the generic
unpacking error — never the structured `StanzaMismatch`, never a tolerated
return — even when `ignore_len` is true; and every input with AT LEAST ONE
language whose stanza counts all agree returns normally (the zero-language
input instead also fails with the unpacking error, see `c8_zero_languages`). -/
theorem c8_unpack_vs_agree :
    (∀ (m : List (String × List PyLine)) (elb : List (String × List Int))
        (el : List (String × List PyLine)) (replaceLb ignoreLen : Bool),
        (m.map Prod.fst).Nodup → m.length ≠ 2 →
        (∃ p ∈ Utils.stanzasOf elb el replaceLb m, ∃ q ∈ Utils.stanzasOf elb el replaceLb m,
          p.2.length ≠ q.2.length) →
        Utils.LyricNormalizer.normalize m elb el replaceLb ignoreLen
          = (true, Except.error Utils.NormError.unpack)) ∧
    (∀ (m : List (String × List PyLine)) (elb : List (String × List Int))
        (el : List (String × List PyLine)) (replaceLb ignoreLen : Bool),
        m ≠ [] →
        (∀ p ∈ Utils.stanzasOf elb el replaceLb m, ∀ q ∈ Utils.stanzasOf elb el replaceLb m,
          p.2.length = q.2.length) →
        Utils.LyricNormalizer.normalize m elb el replaceLb ignoreLen
          = (false, Except.ok (Utils.stanzasOf elb el replaceLb m))) := by
  constructor
  · intro m elb el replaceLb ignoreLen _ hlen hex
    have key : Utils.LyricNormalizer.normalize m elb el replaceLb ignoreLen
        = (if ((Utils.stanzasOf elb el replaceLb m).map fun p => p.2.length).dedup.length = 1
           then (false, Except.ok (Utils.stanzasOf elb el replaceLb m))
           else
             match sortByKey (Utils.stanzasOf elb el replaceLb m) with
             | [_, _] =>
               if ignoreLen then (true, Except.ok (Utils.stanzasOf elb el replaceLb m))
               else (true, Except.error (Utils.NormError.mismatch
                 (Utils.mkStanzaMismatch (Utils.stanzasOf elb el replaceLb m))))
             | _ => (true, Except.error Utils.NormError.unpack)) := rfl
    have hcond : ¬(((Utils.stanzasOf elb el replaceLb m).map fun p => p.2.length).dedup.length = 1) := by
      intro h1
      obtain ⟨p, hp, q, hq, hpq⟩ := hex
      exact hpq (all_eq_of_dedup_length_one h1 _ (List.mem_map_of_mem _ hp) _
        (List.mem_map_of_mem _ hq))
    have hlenS : (sortByKey (Utils.stanzasOf elb el replaceLb m)).length = m.length := by
      rw [sortByKey_length]
      simp [Utils.stanzasOf]
    rw [key, if_neg hcond]
    rcases hsk : sortByKey (Utils.stanzasOf elb el replaceLb m) with _ | ⟨a, _ | ⟨b, _ | ⟨c, t⟩⟩⟩
    · rfl
    · rfl
    · exact absurd (show m.length = 2 by rw [← hlenS, hsk]; rfl) hlen
    · rfl
  · intro m elb el replaceLb ignoreLen hne hall
    have key : Utils.LyricNormalizer.normalize m elb el replaceLb ignoreLen
        = (if ((Utils.stanzasOf elb el replaceLb m).map fun p => p.2.length).dedup.length = 1
           then (false, Except.ok (Utils.stanzasOf elb el replaceLb m))
           else
             match sortByKey (Utils.stanzasOf elb el replaceLb m) with
             | [_, _] =>
               if ignoreLen then (true, Except.ok (Utils.stanzasOf elb el replaceLb m))
               else (true, Except.error (Utils.NormError.mismatch
                 (Utils.mkStanzaMismatch (Utils.stanzasOf elb el replaceLb m))))
             | _ => (true, Except.error Utils.NormError.unpack)) := rfl
    have hcond : (((Utils.stanzasOf elb el replaceLb m).map fun p => p.2.length)).dedup.length = 1 := by
      apply dedup_length_one_of_all_eq
      · simp [Utils.stanzasOf, hne]
      · intro x hx y hy
        obtain ⟨p, hp, rfl⟩ := List.mem_map.mp hx
        obtain ⟨q, hq, rfl⟩ := List.mem_map.mp hy
        exact hall p hp q hq
    rw [key, if_pos hcond]

/-- C8 (witness): a three-language mismatched input fails with the unpacking
error even under `ignore_len=true`, and a one-language input returns normally. -/
theorem c8_unpack_vs_agree_witness :
    Utils.LyricNormalizer.normalize
        [("A", [PyLine.str "x"]), ("B", [PyLine.str "x", PyLine.str "<br/>", PyLine.str "y"]),
          ("D", [PyLine.str "x"])] [] [] false true
      = (true, Except.error Utils.NormError.unpack) ∧
    Utils.LyricNormalizer.normalize [("Korean", [PyLine.str "x"])] [] [] false false
      = (false, Except.ok (Utils.stanzasOf [] [] false [("Korean", [PyLine.str "x"])])) :=
  ⟨c8_unpack_vs_agree.1
      [("A", [PyLine.str "x"]), ("B", [PyLine.str "x", PyLine.str "<br/>", PyLine.str "y"]),
        ("D", [PyLine.str "x"])] [] [] false true (by decide) (by decide) (by decide),
   c8_unpack_vs_agree.2 [("Korean", [PyLine.str "x"])] [] [] false false (by decide) (by decide)⟩

theorem stepLine_done_nonempty {lbSet : List Int} {acc : Utils.StanzaAcc} {i : Nat}
    {line : PyLine} (hacc : ∀ st ∈ acc.done, st ≠ []) (hline : GoodLine line) :
    ∀ st ∈ (Utils.stepLine lbSet acc i line).done, st ≠ [] := by
  cases line with
  | lst l =>
    intro st hst
    simp only [Utils.stepLine] at hst
    rcases List.mem_append.mp hst with h1 | h1
    · by_cases hc : acc.cur = []
      · rw [if_pos hc] at h1
        exact hacc st h1
      · rw [if_neg hc] at h1
        rcases List.mem_append.mp h1 with h2 | h2
        · exact hacc st h2
        · rw [List.mem_singleton.mp h2]
          exact hc
    · rw [List.mem_singleton.mp h1]
      exact hline
  | str s =>
    intro st hst
    simp only [Utils.stepLine] at hst
    split_ifs at hst with h1 h2 h3 h4
    all_goals try dsimp only at hst
    all_goals first
      | exact hacc st hst
      | (rcases List.mem_append.mp hst with h | h
         · exact hacc st h
         · rw [List.mem_singleton.mp h]
           first
             | exact h3.2
             | exact h4.2)

theorem runLines_done_nonempty {lbSet : List Int} :
    ∀ (lines : List PyLine) (acc : Utils.StanzaAcc) (i : Nat),
    (∀ l ∈ lines, GoodLine l) → (∀ st ∈ acc.done, st ≠ []) →
    ∀ st ∈ (Utils.runLines lbSet acc i lines).done, st ≠ [] := by
  intro lines
  induction lines with
  | nil => intro acc i _ hacc; exact hacc
  | cons line rest ih =>
    intro acc i hl hacc
    rw [Utils.runLines]
    exact ih _ _ (fun l h => hl l (List.mem_cons_of_mem _ h))
      (stepLine_done_nonempty hacc (hl line (List.mem_cons_self _ _)))

theorem closeAcc_nonempty {acc : Utils.StanzaAcc} (hacc : ∀ st ∈ acc.done, st ≠ []) :
    ∀ st ∈ Utils.closeAcc acc, st ≠ [] := by
  intro st hst
  unfold Utils.closeAcc at hst
  by_cases hc : acc.cur = []
  · rw [if_pos hc] at hst
    exact hacc st hst
  · rw [if_neg hc] at hst
    rcases List.mem_append.mp hst with h | h
    · exact hacc st h
    · rw [List.mem_singleton.mp h]
      exact hc

theorem iterStanzas_nonempty (lbs : List Int) (replaceLb : Bool) (extra lyrics : List PyLine)
    (hl : ∀ l ∈ lyrics, GoodLine l) (hx : ∀ l ∈ extra, GoodLine l) :
    ∀ st ∈ Utils.iterStanzas lbs replaceLb extra lyrics, st ≠ [] := by
  have hall : ∀ l ∈ ((if replaceLb then stripBreaks lyrics else lyrics) ++ extra), GoodLine l := by
    intro l hmem
    rcases List.mem_append.mp hmem with h | h
    · by_cases hr : replaceLb
      · rw [if_pos hr] at h
        exact hl l (List.mem_of_mem_filter h)
      · rw [if_neg hr] at h
        exact hl l h
    · exact hx l h
  intro st hst
  simp only [Utils.iterStanzas] at hst
  exact closeAcc_nonempty
    (runLines_done_nonempty _ _ _ hall (by intro st h; simp at h)) st hst

/-- C3 (amended): for every input whose list-valued lines are all non-empty
(in particular for every input made of string lines only), every stanza in the
output of the Stanza Normalizer is non-empty; two consecutive break markers
never produce an empty stanza.  (An EMPTY list-valued input line, by contrast,
is emitted verbatim as an empty stanza, see `c3_empty_stanza`.) -/
theorem c3_nonempty_stanzas (m : List (String × List PyLine))
    (elb : List (String × List Int)) (el : List (String × List PyLine))
    (replaceLb ignoreLen : Bool)
    (hm : ∀ p ∈ m, ∀ l ∈ p.2, GoodLine l) (hel : ∀ p ∈ el, ∀ l ∈ p.2, GoodLine l) :
    ∀ (w : Bool) (res : List (String × List (List String))),
    Utils.normalize_lyrics m elb el replaceLb ignoreLen = (w, Except.ok res) →
    ∀ p ∈ res, ∀ st ∈ p.2, st ≠ [] := by
  intro w res hres p hp st hst
  have hres2 : res = Utils.stanzasOf elb el replaceLb m := by
    have key : Utils.normalize_lyrics m elb el replaceLb ignoreLen
        = (if ((Utils.stanzasOf elb el replaceLb m).map fun p => p.2.length).dedup.length = 1
           then (false, Except.ok (Utils.stanzasOf elb el replaceLb m))
           else
             match sortByKey (Utils.stanzasOf elb el replaceLb m) with
             | [_, _] =>
               if ignoreLen then (true, Except.ok (Utils.stanzasOf elb el replaceLb m))
               else (true, Except.error (Utils.NormError.mismatch
                 (Utils.mkStanzaMismatch (Utils.stanzasOf elb el replaceLb m))))
             | _ => (true, Except.error Utils.NormError.unpack)) := rfl
    rw [key] at hres
    split at hres
    · simp only [Prod.mk.injEq, Except.ok.injEq] at hres
      exact hres.2.symm
    · split at hres
      · split at hres
        · simp only [Prod.mk.injEq, Except.ok.injEq] at hres
          exact hres.2.symm
        · simp at hres
      · simp at hres
  subst hres2
  obtain ⟨q, hq, rfl⟩ := List.mem_map.mp hp
  have hx : ∀ l ∈ dictGet el q.1 [], GoodLine l := by
    intro l hmem
    obtain ⟨r, hr, hlr⟩ := mem_dictGet hmem
    exact hel r hr l hlr
  exact iterStanzas_nonempty (dictGet elb q.1 []) replaceLb (dictGet el q.1 []) q.2
    (hm q hq) hx st hst

/-- C3 (witness): the spec's consecutive-marker input, with the markers
collapsing into non-empty stanzas, instantiating the amended theorem. -/
theorem c3_nonempty_stanzas_witness :
    Utils.normalize_lyrics
        [("Korean", [PyLine.str "Hello", PyLine.str "<br/>", PyLine.str "<br/>", PyLine.str "World"])]
        [] [] false false
      = (false, Except.ok [("Korean", [["Hello"], ["World"]])]) ∧
    ["Hello"] ≠ ([] : List String) :=
  ⟨rfl,
   c3_nonempty_stanzas
    [("Korean", [PyLine.str "Hello", PyLine.str "<br/>", PyLine.str "<br/>", PyLine.str "World"])]
    [] [] false false (by decide) (by decide) false [("Korean", [["Hello"], ["World"]])] rfl
    ("Korean", [["Hello"], ["World"]]) (by decide) ["Hello"] (by decide)⟩

theorem lookup_cons_ne {α : Type} (pk : String) (pv : α) (t : List (String × α)) (q : String)
    (h : q ≠ pk) : List.lookup q ((pk, pv) :: t) = List.lookup q t := by
  rw [List.lookup_cons]
  simp [beq_eq_false_iff_ne.mpr h]

theorem lookup_cons_eq {α : Type} (pk : String) (pv : α) (t : List (String × α)) (q : String)
    (h : q = pk) : List.lookup q ((pk, pv) :: t) = some pv := by
  rw [List.lookup_cons]
  simp [beq_iff_eq.mpr h]

theorem dictGet_dictSet_ne {α : Type} (d : List (String × α)) (k q : String) (v dflt : α)
    (h : q ≠ k) : dictGet (Utils.dictSet d k v) q dflt = dictGet d q dflt := by
  induction d with
  | nil => rfl
  | cons p t ih =>
    obtain ⟨pk, pv⟩ := p
    simp only [Utils.dictSet, List.map_cons]
    by_cases hp : pk = k
    · rw [if_pos (show Prod.fst (pk, pv) = k from hp)]
      unfold dictGet
      rw [lookup_cons_ne k v _ q h, lookup_cons_ne pk pv t q (fun hc => h (hc.trans hp))]
      exact ih
    · rw [if_neg (show ¬(Prod.fst (pk, pv) = k) from hp)]
      by_cases hq : q = pk
      · unfold dictGet
        rw [lookup_cons_eq pk pv _ q hq, lookup_cons_eq pk pv t q hq]
      · unfold dictGet
        rw [lookup_cons_ne pk pv _ q hq, lookup_cons_ne pk pv t q hq]
        exact ih

theorem buildStanzasSt_snd (replaceLb : Bool) (el : List (String × List PyLine)) :
    ∀ (m : List (String × List PyLine)) (lbMap : List (String × List Int)),
    (m.map Prod.fst).Nodup →
    (Utils.buildStanzasSt replaceLb el lbMap m).2
      = m.map fun p => (p.1, Utils.langStanzas lbMap el replaceLb p.1 p.2) := by
  intro m
  induction m with
  | nil => intro lbMap _; rfl
  | cons p t ih =>
    intro lbMap hnd
    simp only [List.map_cons] at hnd
    obtain ⟨hp1, hnd2⟩ := List.nodup_cons.mp hnd
    simp only [Utils.buildStanzasSt, List.map_cons]
    congr 1
    rw [ih _ hnd2]
    apply List.map_congr_left
    intro q hq
    have hne : q.1 ≠ p.1 := fun heq => hp1 (heq ▸ List.mem_map_of_mem Prod.fst hq)
    simp only [Utils.langStanzas]
    split
    · rw [dictGet_dictSet_ne _ _ _ _ _ hne]
    · rfl

/-- C7: normalization is deterministic and pure.  The state-threaded execution
model `normalizeSt`, in which the in-place mutation of the normalizer's
`line_breaks` sets is explicit, computes exactly the pure function
`normalize_lyrics`; since `normalize_lyrics` builds a fresh normalizer from
its arguments on every call, two runs on equal inputs return identical Stanza
Sets with no dependence on shared mutable state between invocations. -/
theorem c7_stateful_refines_pure (m : List (String × List PyLine))
    (elb : List (String × List Int)) (el : List (String × List PyLine))
    (replaceLb ignoreLen : Bool) (h : (m.map Prod.fst).Nodup) :
    (Utils.LyricNormalizer.normalizeSt m elb el replaceLb ignoreLen).2
      = Utils.normalize_lyrics m elb el replaceLb ignoreLen := by
  have hb := buildStanzasSt_snd replaceLb el m elb h
  simp only [Utils.langStanzas] at hb
  simp only [Utils.LyricNormalizer.normalizeSt, Utils.normalize_lyrics,
    Utils.LyricNormalizer.normalize, hb]

/-- C7 (witness): the stateful and pure runs agree on a concrete two-language
input with negative forced-break indices (the mutated entries). -/
theorem c7_stateful_refines_pure_witness :
    (Utils.LyricNormalizer.normalizeSt
        [("Korean", [PyLine.str "a", PyLine.str "b"]), ("English", [PyLine.str "a", PyLine.str "b"])]
        [("Korean", [-1]), ("English", [-1])] [] false false).2
      = Utils.normalize_lyrics
        [("Korean", [PyLine.str "a", PyLine.str "b"]), ("English", [PyLine.str "a", PyLine.str "b"])]
        [("Korean", [-1]), ("English", [-1])] [] false false :=
  c7_stateful_refines_pure
    [("Korean", [PyLine.str "a", PyLine.str "b"]), ("English", [PyLine.str "a", PyLine.str "b"])]
    [("Korean", [-1]), ("English", [-1])] [] false false (by decide)

theorem initStep_clean {lbSet : List Int} {acc : Utils.StanzaAcc} {i : Nat} {s : String}
    (h1 : pyStrip s = s) (h2 : s ≠ "") :
    InitPy.stepLine lbSet (accToRaw acc) i (PyLine.str s)
      = Except.ok (accToRaw (Utils.stepLine lbSet acc i (PyLine.str s))) := by
  obtain ⟨dn, cr⟩ := acc
  simp only [InitPy.stepLine, Utils.stepLine, accToRaw, h1]
  by_cases hbr : s = "<br/>" <;> by_cases hmem : (i : Int) ∈ lbSet <;> by_cases hc : cr = [] <;>
    simp [hbr, hmem, hc, h2, strStanza, List.map_eq_nil_iff]

theorem initRun_clean {lbSet : List Int} :
    ∀ (lines : List PyLine) (acc : Utils.StanzaAcc) (i : Nat),
    (∀ l ∈ lines, CleanLine l) →
    InitPy.runLines lbSet (accToRaw acc) i lines
      = Except.ok (accToRaw (Utils.runLines lbSet acc i lines)) := by
  intro lines
  induction lines with
  | nil => intro acc i _; rfl
  | cons line rest ih =>
    intro acc i hcl
    have hline := hcl line (List.mem_cons_self _ _)
    obtain ⟨s, rfl⟩ : ∃ s, line = PyLine.str s := by
      cases line with
      | str s => exact ⟨s, rfl⟩
      | lst l => exact absurd hline (by simp [CleanLine])
    obtain ⟨h1, h2⟩ : pyStrip s = s ∧ s ≠ "" := hline
    rw [InitPy.runLines, Utils.runLines, initStep_clean h1 h2]
    exact ih _ _ (fun l h => hcl l (List.mem_cons_of_mem _ h))

theorem initClose_eq {acc : Utils.StanzaAcc} :
    InitPy.closeAcc (accToRaw acc) = (Utils.closeAcc acc).map strStanza := by
  obtain ⟨dn, cr⟩ := acc
  by_cases hc : cr = []
  · simp [InitPy.closeAcc, Utils.closeAcc, accToRaw, hc, strStanza]
  · simp [InitPy.closeAcc, Utils.closeAcc, accToRaw, hc, strStanza, List.map_eq_nil_iff]

theorem initIter_clean (lbs : List Int) (replaceLb : Bool) (extra lyrics : List PyLine)
    (hx : ∀ l ∈ extra, CleanLine l) (hl : ∀ l ∈ lyrics, CleanLine l) :
    InitPy.iterStanzas lbs replaceLb extra lyrics
      = Except.ok ((Utils.iterStanzas lbs replaceLb extra lyrics).map strStanza) := by
  have hall : ∀ l ∈ ((if replaceLb then stripBreaks lyrics else lyrics) ++ extra), CleanLine l := by
    intro l hmem
    rcases List.mem_append.mp hmem with h | h
    · by_cases hr : replaceLb
      · rw [if_pos hr] at h
        exact hl l (List.mem_of_mem_filter h)
      · rw [if_neg hr] at h
        exact hl l h
    · exact hx l h
  simp only [InitPy.iterStanzas, Utils.iterStanzas]
  have h0 : InitPy.RawStanzaAcc.mk [] [] = accToRaw (Utils.StanzaAcc.mk [] []) := rfl
  rw [h0, initRun_clean _ _ _ hall]
  simp [initClose_eq]

theorem initBuild_clean (elb : List (String × List Int)) (el : List (String × List PyLine))
    (replaceLb : Bool) :
    ∀ (m : List (String × List PyLine)),
    (∀ p ∈ m, ∀ l ∈ p.2, CleanLine l) → (∀ p ∈ el, ∀ l ∈ p.2, CleanLine l) →
    InitPy.buildStanzas elb el replaceLb m
      = Except.ok (m.map fun p =>
          (p.1, (Utils.langStanzas elb el replaceLb p.1 p.2).map strStanza)) := by
  intro m
  induction m with
  | nil => intro _ _; rfl
  | cons p t ih =>
    intro hm hel
    have hx : ∀ l ∈ dictGet el p.1 [], CleanLine l := by
      intro l hmem
      obtain ⟨q, hq, hlq⟩ := mem_dictGet hmem
      exact hel q hq l hlq
    rw [InitPy.buildStanzas, initIter_clean _ _ _ _ hx (hm p (List.mem_cons_self _ _))]
    rw [ih (fun q hq => hm q (List.mem_cons_of_mem _ hq)) hel]
    rfl

/-- C6 (amended): the list-based `normalize_lyrics` of `__init__.py` and the
`LyricNormalizer`-based one of utils.py agree on every input whose lines
(lyrics and extra lines alike) are non-empty pre-trimmed strings: whenever
both complete without error they return equal per-language stanza sets (equal
up to re-injecting the trimmed lines as raw values).  In general the two are
NOT equivalent: the old variant keeps raw lines where the new one trims, see
`c6_trim_divergence`. -/
theorem c6_list_based_matches_normalizer (m : List (String × List PyLine))
    (elb : List (String × List Int)) (el : List (String × List PyLine))
    (replaceLb ignoreLen : Bool)
    (hm : ∀ p ∈ m, ∀ l ∈ p.2, CleanLine l) (hel : ∀ p ∈ el, ∀ l ∈ p.2, CleanLine l)
    (oldRes : List (String × List (List PyLine)))
    (hold : InitPy.normalize_lyrics m elb el replaceLb ignoreLen = Except.ok oldRes)
    (w : Bool) (newRes : List (String × List (List String)))
    (hnew : Utils.normalize_lyrics m elb el replaceLb ignoreLen = (w, Except.ok newRes)) :
    oldRes = newRes.map fun p => (p.1, p.2.map strStanza) := by
  have hnewRes : newRes = Utils.stanzasOf elb el replaceLb m := by
    have key : Utils.normalize_lyrics m elb el replaceLb ignoreLen
        = (if ((Utils.stanzasOf elb el replaceLb m).map fun p => p.2.length).dedup.length = 1
           then (false, Except.ok (Utils.stanzasOf elb el replaceLb m))
           else
             match sortByKey (Utils.stanzasOf elb el replaceLb m) with
             | [_, _] =>
               if ignoreLen then (true, Except.ok (Utils.stanzasOf elb el replaceLb m))
               else (true, Except.error (Utils.NormError.mismatch
                 (Utils.mkStanzaMismatch (Utils.stanzasOf elb el replaceLb m))))
             | _ => (true, Except.error Utils.NormError.unpack)) := rfl
    rw [key] at hnew
    split at hnew
    · simp only [Prod.mk.injEq, Except.ok.injEq] at hnew
      exact hnew.2.symm
    · split at hnew
      · split at hnew
        · simp only [Prod.mk.injEq, Except.ok.injEq] at hnew
          exact hnew.2.symm
        · simp at hnew
      · simp at hnew
  have hb := initBuild_clean elb el replaceLb m hm hel
  simp only [InitPy.normalize_lyrics, hb] at hold
  split at hold
  · simp at hold
  · simp only [Except.ok.injEq] at hold
    rw [← hold, hnewRes]
    simp only [Utils.stanzasOf, List.map_map]
    rfl

/-- C6 (witness): the two implementations agree on a clean two-stanza input. -/
theorem c6_list_based_matches_normalizer_witness :
    [("Korean", [[PyLine.str "A"], [PyLine.str "B"]])]
      = [("Korean", ([["A"], ["B"]] : List (List String)))].map
          (fun p => (p.1, p.2.map strStanza)) :=
  c6_list_based_matches_normalizer
    [("Korean", [PyLine.str "A", PyLine.str "<br/>", PyLine.str "B"])] [] [] false false
    (by decide) (by decide)
    [("Korean", [[PyLine.str "A"], [PyLine.str "B"]])] rfl
    false [("Korean", [["A"], ["B"]])] rfl

end LyricFetcher
